import Mathlib

/-!
# Verification of the AgroData Nexus dashboard pipeline

Shallow embedding of `src/app.py`: the two fetch functions with synthetic
fallbacks (`get_finance_history`, `get_weather_history`), the clean/merge
block building `df_full`, the sidebar date defaults, the graph date-range
filter, and the KPI row selection.  Timestamps are modelled as integers
(seconds); the day component of a timestamp (Python `.date()`) is floor
division by 86400.  Table cells are `Option ℚ` — `none` models a NaN entry.
-/

namespace AgroData

/-! ## Data model -/

/-- A row of the financial table: columns `Dolar`, `JBS`, `Boi_Gordo`. -/
structure FinRow where
  dolar : Option ℚ
  jbs : Option ℚ
  boi : Option ℚ
deriving DecidableEq, Repr

/-- A row of the weather table: columns `Temp_Max`, `Chuva_mm`. -/
structure ClimaRow where
  tempMax : Option ℚ
  chuva : Option ℚ
deriving DecidableEq, Repr

/-- A row of the merged table `df_full`: all five columns. -/
structure FullRow where
  dolar : Option ℚ
  jbs : Option ℚ
  boi : Option ℚ
  tempMax : Option ℚ
  chuva : Option ℚ
deriving DecidableEq, Repr

/-- A time-indexed table: list of (timestamp, row), as a pandas DataFrame. -/
abbrev FinDF := List (Int × FinRow)
abbrev ClimaDF := List (Int × ClimaRow)
abbrev FullDF := List (Int × FullRow)

/-- The day component of a timestamp (Python `Timestamp.date()`). -/
def dayOf (t : Int) : Int := Int.ediv t 86400

/-- The index (list of timestamps) of a table. -/
def keysOf (df : List (Int × α)) : List Int := df.map Prod.fst

/-! ## Synthetic fallback generators (lines 34-49 of app.py)

The pseudorandom draws (`np.random.normal`, `np.random.choice`), the current
time, and the transcendental `np.sin(np.linspace(0, 3.14, n))` samples are
environment inputs: they are the parameters of the generator environments
below, and the generators compute the same arithmetic the source does on
them.  `8.5` is written `17/2` in `ℚ`. -/

/-- Models `np.cumsum`, starting from a partial sum `s`. -/
def cumsumFrom (s : ℚ) : List ℚ → List ℚ
  | [] => []
  | x :: xs => (s + x) :: cumsumFrom (s + x) xs

/-- Models `np.cumsum`. -/
def cumsum (l : List ℚ) : List ℚ := cumsumFrom 0 l

/-- Environment of `gerar_dados_financeiros_fake`: `datas` models
`pd.date_range(end=datetime.now(), periods=365, freq='B')` and the noise
lists model the three `np.random.normal` draws. -/
structure FakeFinEnv where
  datas : List Int
  noiseDolar : List ℚ
  noiseJbs : List ℚ
  noiseBoi : List ℚ
deriving DecidableEq, Repr

/-- Models `gerar_dados_financeiros_fake` (app.py lines 34-41):
`dolar = 5.0 + cumsum(noise)`, `jbs = 25.0 + cumsum(noise)`,
`boi = jbs * 8.5 + 50 + noise`. -/
def gerar_dados_financeiros_fake (env : FakeFinEnv) : FinDF :=
  let dolar := (cumsum env.noiseDolar).map (fun x => 5 + x)
  let jbs := (cumsum env.noiseJbs).map (fun x => 25 + x)
  let boi := (jbs.zip env.noiseBoi).map (fun p => p.1 * (17/2) + 50 + p.2)
  env.datas.zip ((dolar.zip (jbs.zip boi)).map
    (fun p => FinRow.mk (some p.1) (some p.2.1) (some p.2.2)))

/-- Environment of `gerar_dados_clima_fake`: `datas` models
`pd.date_range(end=datetime.now(), periods=365, freq='D')`, `sinSamples`
the values `np.sin(np.linspace(0, 3.14, n))`, `tempNoise` the
`np.random.normal(0, 2, n)` draw, `chuvaDraws` the `np.random.choice` draw. -/
structure FakeClimaEnv where
  datas : List Int
  sinSamples : List ℚ
  tempNoise : List ℚ
  chuvaDraws : List ℚ
deriving DecidableEq, Repr

/-- Models `gerar_dados_clima_fake` (app.py lines 43-49):
`temp = 30 + 5 * sin(...) + noise`, `chuva = random choice draw`. -/
def gerar_dados_clima_fake (env : FakeClimaEnv) : ClimaDF :=
  let temp := (env.sinSamples.zip env.tempNoise).map (fun p => 30 + 5 * p.1 + p.2)
  env.datas.zip ((temp.zip env.chuvaDraws).map
    (fun p => ClimaRow.mk (some p.1) (some p.2)))

/-! ## Fetch functions (lines 51-87 of app.py) -/

/-- Environment of `get_finance_history`: `close` is the result of
`yf.download(...)['Close']` as (timestamp, Dolar close, JBS close) rows
(`none` cells are NaN); `close = none` models the library call raising. -/
structure FinEnv where
  close : Option (List (Int × Option ℚ × Option ℚ))
deriving DecidableEq, Repr

/-- The live financial table built in the `try` block of
`get_finance_history`: columns renamed to `Dolar`, `JBS`, timezone dropped
(identity on our integer timestamps), and `Boi_Gordo = JBS * 8.5 + 50`
(NaN propagates). -/
def liveFinanceTable (rows : List (Int × Option ℚ × Option ℚ)) : FinDF :=
  rows.map (fun r => (r.1, FinRow.mk r.2.1 r.2.2 (r.2.2.map (fun j => j * (17/2) + 50))))

/-- Models `get_finance_history` (app.py lines 51-63): on a raising download or a
result that is empty or shorter than 10 rows, return the synthetic table
with flag `false`; otherwise the live table with flag `true`. -/
def get_finance_history (env : FinEnv) (fake : FakeFinEnv) : FinDF × Bool :=
  match env.close with
  | none => (gerar_dados_financeiros_fake fake, false)
  | some rows =>
    if rows.isEmpty ∨ rows.length < 10 then (gerar_dados_financeiros_fake fake, false)
    else (liveFinanceTable rows, true)

/-- Environment of `get_weather_history`: `response = none` models the HTTP
request, JSON decoding or table construction raising; `some none` a JSON
body without a `daily` field; `some (some rows)` the daily data as
(timestamp, temperature_2m_max, precipitation_sum) rows. -/
structure WeatherEnv where
  response : Option (Option (List (Int × Option ℚ × Option ℚ)))
deriving DecidableEq, Repr

/-- The live weather table built in the `try` block of `get_weather_history`:
`Temp_Max` and `Chuva_mm` indexed by the parsed `Date`. -/
def liveWeatherTable (rows : List (Int × Option ℚ × Option ℚ)) : ClimaDF :=
  rows.map (fun r => (r.1, ClimaRow.mk r.2.1 r.2.2))

/-- Models `get_weather_history` (app.py lines 65-87): on a raising request or a
response without a `daily` field, return the synthetic table with flag
`false`; otherwise the live table with flag `true`. -/
def get_weather_history (env : WeatherEnv) (fake : FakeClimaEnv) : ClimaDF × Bool :=
  match env.response with
  | none => (gerar_dados_clima_fake fake, false)
  | some none => (gerar_dados_clima_fake fake, false)
  | some (some rows) => (liveWeatherTable rows, true)

/-- The finance source is unavailable in the sense of the spec: the download
raises, or yields an empty or shorter-than-10-rows table. -/
def financeUnavailable (env : FinEnv) : Prop :=
  env.close = none ∨ ∃ rows, env.close = some rows ∧ rows.length < 10

/-- The weather source is unavailable in the sense of the spec: the request
raises or the response lacks a `daily` field. -/
def weatherUnavailable (env : WeatherEnv) : Prop :=
  env.response = none ∨ env.response = some none

instance (env : FinEnv) : Decidable (financeUnavailable env) := by
  unfold financeUnavailable
  cases h : env.close with
  | none => exact .isTrue (Or.inl rfl)
  | some rows =>
    by_cases hl : rows.length < 10
    · exact .isTrue (Or.inr ⟨rows, rfl, hl⟩)
    · refine .isFalse ?_
      rintro (hc | ⟨r, hr, hlen⟩)
      · exact Option.noConfusion hc
      · cases hr; exact hl hlen

/-! ## Clean/merge block (lines 93-113 of app.py) -/

/-- A column name of the merged table. -/
inductive Col
  | dolar
  | jbs
  | boi
  | tempMax
  | chuva
deriving DecidableEq, Repr

/-- Read one cell of a merged row. -/
def FullRow.cell (r : FullRow) : Col → Option ℚ
  | .dolar => r.dolar
  | .jbs => r.jbs
  | .boi => r.boi
  | .tempMax => r.tempMax
  | .chuva => r.chuva

/-- Write one cell of a merged row. -/
def FullRow.setCell (r : FullRow) : Col → Option ℚ → FullRow
  | .dolar, v => { r with dolar := v }
  | .jbs, v => { r with jbs := v }
  | .boi, v => { r with boi := v }
  | .tempMax, v => { r with tempMax := v }
  | .chuva, v => { r with chuva := v }

/-- The merged row for timestamp `k`: financial columns from the financial
table's row at `k`, weather columns from the weather table's row at `k`,
NaN (`none`) where the table has no row at `k`. -/
def mergeRow (fin : FinDF) (clima : ClimaDF) (k : Int) : FullRow :=
  { dolar := (fin.lookup k).bind FinRow.dolar
    jbs := (fin.lookup k).bind FinRow.jbs
    boi := (fin.lookup k).bind FinRow.boi
    tempMax := (clima.lookup k).bind ClimaRow.tempMax
    chuva := (clima.lookup k).bind ClimaRow.chuva }

/-- Models `pd.concat([df_fin, df_clima], axis=1)` (line 95): an outer join on the
index.  Reindexing with a duplicated index raises, which the surrounding
`try` catches; otherwise the result holds one row per timestamp of either
input. -/
def concatOuter (fin : FinDF) (clima : ClimaDF) : Except String FullDF :=
  if (keysOf fin).Nodup ∧ (keysOf clima).Nodup then
    .ok ((keysOf fin ++ (keysOf clima).filter (fun k => decide (k ∉ keysOf fin))).map
      (fun k => (k, mergeRow fin clima k)))
  else .error "cannot reindex on an axis with duplicate labels"

/-- Models `df_full.sort_index()` (line 98). -/
def sortIndex (df : FullDF) : FullDF :=
  List.insertionSort (fun a b => a.1 ≤ b.1) df

/-- Steps 1-2 of the block: merge, then sort by date. -/
def mergedSorted (fin : FinDF) (clima : ClimaDF) : Except String FullDF :=
  (concatOuter fin clima).map sortIndex

/-- Models `Series.ffill()` on column `c`, carrying the last seen value `last`. -/
def ffillColAux (c : Col) : Option ℚ → FullDF → FullDF
  | _, [] => []
  | last, (k, r) :: rest =>
    match r.cell c with
    | some v => (k, r) :: ffillColAux c (some v) rest
    | none => (k, r.setCell c last) :: ffillColAux c last rest

/-- Models `df_full[c] = df_full[c].ffill()` (lines 101-103, 107). -/
def ffillCol (c : Col) (df : FullDF) : FullDF := ffillColAux c none df

/-- Models `df_full[c] = df_full[c].fillna(0)` (line 106). -/
def fillnaZero (c : Col) (df : FullDF) : FullDF :=
  df.map (fun p =>
    match p.2.cell c with
    | none => (p.1, p.2.setCell c (some 0))
    | some _ => p)

/-- A row with no NaN cell. -/
def completeRow (r : FullRow) : Bool :=
  r.dolar.isSome && r.jbs.isSome && r.boi.isSome && r.tempMax.isSome && r.chuva.isSome

/-- Models `df_full.dropna()` (line 110). -/
def dropna (df : FullDF) : FullDF := df.filter (fun p => completeRow p.2)

/-- Steps 3-4 of the block: forward-fill the three price columns, fill rain
with 0, forward-fill temperature. -/
def applyFills (df : FullDF) : FullDF :=
  ffillCol .tempMax (fillnaZero .chuva (ffillCol .boi (ffillCol .jbs (ffillCol .dolar df))))

/-- The whole `try` block (lines 93-110): merge, sort, fill, drop NaN rows. -/
def cleanPipeline (fin : FinDF) (clima : ClimaDF) : Except String FullDF :=
  (mergedSorted fin clima).map (fun df => dropna (applyFills df))

/-- A financial row viewed as a merged row (weather columns absent). -/
def finRowToFull (r : FinRow) : FullRow :=
  { dolar := r.dolar, jbs := r.jbs, boi := r.boi, tempMax := none, chuva := none }

/-- Models `df_full` with the `except` fallback (lines 93-113): on any failure of
the block, `df_full = df_fin.copy()`. -/
def dfFull (fin : FinDF) (clima : ClimaDF) : FullDF :=
  match cleanPipeline fin clima with
  | .ok df => df
  | .error _ => fin.map (fun p => (p.1, finRowToFull p.2))

/-! ## Sidebar dates, graph filter, KPI rows (lines 115-180 of app.py) -/

/-- Models `df_full.index.max()` on a non-empty table (0 as an arbitrary value on
the empty table, on which the source never calls it). -/
def maxKey (df : FullDF) : Int :=
  match df with
  | [] => 0
  | (k, _) :: rest => rest.foldl (fun a p => max a p.1) k

/-- Models `df_full.index.min()` on a non-empty table. -/
def minKey (df : FullDF) : Int :=
  match df with
  | [] => 0
  | (k, _) :: rest => rest.foldl (fun a p => min a p.1) k

/-- Models `df_full.index.max().date()` (line 128). -/
def maxDateOf (df : FullDF) : Int := dayOf (maxKey df)

/-- Models `df_full.index.min().date()` (line 129). -/
def minDateOf (df : FullDF) : Int := dayOf (minKey df)

/-- The default start of the graph period (lines 147-149): 180 days before
`max_date`, moved up to `min_date` if it falls before it. -/
def defaultStartValue (minDate maxDate : Int) : Int :=
  let d := maxDate - 180
  if d < minDate then minDate else d

/-- Is a timestamp's day inside the selected graph range (line 164)? -/
def inRangeB (s e k : Int) : Bool :=
  decide (s ≤ dayOf k) && decide (dayOf k ≤ e)

/-- Models `df_filtered` (lines 164-165): the rows of `df_full` whose index date
lies in the inclusive interval selected for the graphs. -/
def filterGraph (df : FullDF) (s e : Int) : FullDF :=
  df.filter (fun p => inRangeB s e p.1)

/-- Python `iloc` indexing with negative indexes from the end; `none`
models an out-of-bounds access raising `IndexError`. -/
def ilocZ (df : List α) (i : Int) : Option α :=
  if 0 ≤ i then df.get? i.toNat
  else if i.natAbs ≤ df.length then df.get? (df.length - i.natAbs)
  else none

/-- Models `df_full.index.get_indexer([ts], method=ffill)[0]` (line 173) on a
monotonic index: the position of the last index entry `≤ ts`, or `-1` when
there is none. -/
def ffillIndexer (df : FullDF) (ts : Int) : Int :=
  (df.countP (fun p => decide (p.1 ≤ ts)) : Int) - 1

/-- The `try` part of the KPI block (lines 168-176):
`get_indexer([ts], method='ffill')` needs a monotonic index (otherwise it
raises, modelled by `none`); when it yields `-1`, `iloc[-1]` silently takes
the last row.  `dia_anterior` is the previous row when the position is
positive, else the same row. -/
def kpiRowsTry (df : FullDF) (ts : Int) : Option (FullRow × FullRow) :=
  if List.Pairwise (fun a b => a ≤ b) (keysOf df) then
    match ilocZ df (ffillIndexer df ts) with
    | none => none
    | some r =>
      if 0 < ffillIndexer df ts then
        match ilocZ df (ffillIndexer df ts - 1) with
        | none => none
        | some p => some (r.2, p.2)
      else some (r.2, r.2)
  else none

/-- The KPI block with its `except` branch (lines 168-180): on failure take
the last two rows; `none` models the uncaught exception when even those are
absent. -/
def kpiRows (df : FullDF) (selDay : Int) : Option (FullRow × FullRow) :=
  match kpiRowsTry df (selDay * 86400) with
  | some pr => some pr
  | none =>
    match ilocZ df (-1 : Int), ilocZ df (-2 : Int) with
    | some a, some b => some (a.2, b.2)
    | _, _ => none

/-! ## The result cache (`@st.cache_data`, lines 51 and 65)

Per the spec, a result cache keyed on the function arguments: a call first
looks its arguments up in the cache; on a miss it runs the function and
stores the result. -/

/-- One cached call: returns the result and the updated cache. -/
def callCached [DecidableEq α] (f : α → β) (st : List (α × β)) (a : α) : β × List (α × β) :=
  match st.lookup a with
  | some b => (b, st)
  | none => (f a, (a, f a) :: st)

/-! ## The whole script run (lines 90-286 of app.py) -/

/-- The sidebar selections of the user. -/
structure UIEnv where
  selectedDate : Int
  startGraph : Int
  endGraph : Int
deriving DecidableEq, Repr

/-- The environment of one script run. -/
structure ProgramEnv where
  fin : FinEnv
  fakeFin : FakeFinEnv
  weather : WeatherEnv
  fakeClima : FakeClimaEnv
  ui : UIEnv
deriving DecidableEq, Repr

/-- The observable outputs of a completed run. -/
structure Outputs where
  statusFin : Bool
  statusClima : Bool
  chartData : FullDF
  kpi : FullRow × FullRow
  downloadFin : FinDF
  downloadClima : ClimaDF
deriving DecidableEq, Repr

/-- How a run ends: `stopped` is `st.stop()` after the date-order error
(line 161), `crashed` an uncaught exception in the KPI block. -/
inductive ProgramResult
  | stopped
  | crashed
  | finished (out : Outputs)
deriving DecidableEq, Repr

/-- One script run: fetch, clean/merge, date-order guard, graph filter, KPI
rows, dashboard and downloads.  The download buttons (lines 285-286) serve
`df_fin.to_csv()` and `df_clima.to_csv()`. -/
def runProgram (env : ProgramEnv) : ProgramResult :=
  let fin := get_finance_history env.fin env.fakeFin
  let clima := get_weather_history env.weather env.fakeClima
  let df := dfFull fin.1 clima.1
  if env.ui.endGraph < env.ui.startGraph then .stopped
  else
    let filtered := filterGraph df env.ui.startGraph env.ui.endGraph
    match kpiRows df env.ui.selectedDate with
    | none => .crashed
    | some pr => .finished ⟨fin.2, clima.2, filtered, pr, fin.1, clima.1⟩

/-! ## Derived notions used by the statements -/

/-- The series of one column of a merged table. -/
def colProj (c : Col) (df : FullDF) : List (Option ℚ) :=
  df.map (fun p => p.2.cell c)

/-- Update the running last-known value of a series with one more cell. -/
def updLast (a o : Option ℚ) : Option ℚ :=
  match o with
  | some v => some v
  | none => a

/-- The last known (non-NaN) value of a series, starting from `a`. -/
def lastKnownFrom (a : Option ℚ) (cells : List (Option ℚ)) : Option ℚ :=
  cells.foldl updLast a

/-- The last known (non-NaN) value of a series, if any. -/
def lastKnown (cells : List (Option ℚ)) : Option ℚ :=
  lastKnownFrom none cells

/-- The spec's reading of forward fill: entry `i` of the filled series is
the last value known at or before position `i` (never a later one). -/
def forwardFillSpec (cells : List (Option ℚ)) : List (Option ℚ) :=
  (List.range cells.length).map (fun i => lastKnown (cells.take (i + 1)))

instance : IsTotal (Int × FullRow) (fun a b => a.1 ≤ b.1) :=
  ⟨fun a b => le_total a.1 b.1⟩

instance : IsTrans (Int × FullRow) (fun a b => a.1 ≤ b.1) :=
  ⟨fun _ _ _ hab hbc => le_trans hab hbc⟩

/-! ## Concrete inputs used by witnesses and counterexamples -/

/-- A financial table whose only price observation is at timestamp 2. -/
def finC1 : FinDF := [(2, ⟨some 5, some 25, some (525/2)⟩)]

/-- A weather table with observations at timestamps 1 and 2. -/
def climaC1 : ClimaDF := [(1, ⟨some 30, some 0⟩), (2, ⟨some 31, some 0⟩)]

/-- The merged, sorted table of `finC1` and `climaC1`: at timestamp 1 the
prices are missing (NaN) while the weather is known. -/
def mC1 : FullDF :=
  [(1, ⟨none, none, none, some 30, some 0⟩),
   (2, ⟨some 5, some 25, some (525/2), some 31, some 0⟩)]

/-- A financial table with a duplicated index label. -/
def finDup : FinDF := [(0, ⟨some 1, some 2, some 3⟩), (0, ⟨some 1, some 2, some 3⟩)]

/-- A tiny fake-finance environment: one business day, zero noise. -/
def fakeFinEx : FakeFinEnv := ⟨[86400], [0], [0], [0]⟩

/-- A tiny fake-weather environment: one day (day 5), zero noise. -/
def fakeClimaEx : FakeClimaEnv := ⟨[432000], [0], [0], [0]⟩

/-- A run environment where both live sources are down, the synthetic
financial table lives on day 1, the synthetic weather table on day 5, and
the graph period selected in the UI is the single day 5. -/
def envC4 : ProgramEnv :=
  { fin := ⟨none⟩
    fakeFin := fakeFinEx
    weather := ⟨none⟩
    fakeClima := fakeClimaEx
    ui := ⟨5, 5, 5⟩ }

/-- The row surviving the clean block in the run of `envC4` (cell values
written as the unevaluated arithmetic the generators produce). -/
def rowC4 : FullRow :=
  ⟨some (5 + (0 + 0)), some (25 + (0 + 0)),
    some ((25 + (0 + 0)) * (17 / 2) + 50 + 0), some (30 + 5 * 0 + 0), some 0⟩

/-- The outputs of the run of `envC4`. -/
def outC4 : Outputs :=
  { statusFin := false
    statusClima := false
    chartData := [(432000, rowC4)]
    kpi := (rowC4, rowC4)
    downloadFin := [(86400, ⟨some (5 + (0 + 0)), some (25 + (0 + 0)),
      some ((25 + (0 + 0)) * (17 / 2) + 50 + 0)⟩)]
    downloadClima := [(432000, ⟨some (30 + 5 * 0 + 0), some 0⟩)] }

/-! ## Helper lemmas -/

theorem cell_setCell_self (r : FullRow) (c : Col) (v : Option ℚ) :
    (r.setCell c v).cell c = v := by
  cases c <;> rfl

theorem cell_setCell_of_ne (r : FullRow) (c c' : Col) (v : Option ℚ) (h : c ≠ c') :
    (r.setCell c' v).cell c = r.cell c := by
  cases c <;> cases c' <;> first | rfl | exact absurd rfl h

theorem callCached_repeat {α β : Type} [DecidableEq α] (f g : α → β)
    (st : List (α × β)) (a : α) :
    (callCached g (callCached f st a).2 a).1 = (callCached f st a).1 := by
  unfold callCached
  cases h : st.lookup a with
  | some b => simp [h]
  | none => simp [h, List.lookup]

theorem foldl_min_le_foldl_max (rest : List (Int × FullRow)) (a b : Int) (hab : a ≤ b) :
    rest.foldl (fun x p => min x p.1) a ≤ rest.foldl (fun x p => max x p.1) b := by
  induction rest generalizing a b with
  | nil => exact hab
  | cons hd tl ih =>
    exact ih _ _ (le_trans (min_le_left _ _) (le_trans hab (le_max_left _ _)))

theorem minKey_le_maxKey (df : FullDF) (h : df ≠ []) : minKey df ≤ maxKey df := by
  cases df with
  | nil => exact absurd rfl h
  | cons hd tl => exact foldl_min_le_foldl_max tl hd.1 hd.1 le_rfl

theorem minDateOf_le_maxDateOf (df : FullDF) (h : df ≠ []) :
    minDateOf df ≤ maxDateOf df :=
  Int.ediv_le_ediv (by norm_num) (minKey_le_maxKey df h)

theorem ilocZ_mem {α : Type} (df : List α) (i : Int) (x : α) (h : ilocZ df i = some x) :
    x ∈ df := by
  unfold ilocZ at h
  split at h
  · exact List.get?_mem h
  · split at h
    · exact List.get?_mem h
    · exact Option.noConfusion h

theorem colProj_cons (c : Col) (k : Int) (r : FullRow) (l : FullDF) :
    colProj c ((k, r) :: l) = r.cell c :: colProj c l := rfl

theorem lastKnownFrom_cons (a o : Option ℚ) (l : List (Option ℚ)) :
    lastKnownFrom a (o :: l) = lastKnownFrom (updLast a o) l := rfl

theorem ffillColAux_cons_some (c : Col) (a : Option ℚ) (k : Int) (r : FullRow)
    (tl : FullDF) (v : ℚ) (hr : r.cell c = some v) :
    ffillColAux c a ((k, r) :: tl) = (k, r) :: ffillColAux c (some v) tl := by
  simp only [ffillColAux, hr]

theorem ffillColAux_cons_none (c : Col) (a : Option ℚ) (k : Int) (r : FullRow)
    (tl : FullDF) (hr : r.cell c = none) :
    ffillColAux c a ((k, r) :: tl) = (k, r.setCell c a) :: ffillColAux c a tl := by
  simp only [ffillColAux, hr]

theorem colProj_ffillColAux (c : Col) (a : Option ℚ) (df : FullDF) :
    colProj c (ffillColAux c a df) =
      (List.range df.length).map
        (fun i => lastKnownFrom a ((colProj c df).take (i + 1))) := by
  induction df generalizing a with
  | nil => rfl
  | cons hd tl ih =>
    obtain ⟨k, r⟩ := hd
    have hrange : ∀ g : ℕ → Option ℚ, (List.range (tl.length + 1)).map g
        = g 0 :: (List.range tl.length).map (fun i => g (i + 1)) := by
      intro g
      rw [List.range_succ_eq_map, List.map_cons, List.map_map]
      rfl
    cases hr : r.cell c with
    | some v =>
      rw [ffillColAux_cons_some c a k r tl v hr, colProj_cons, colProj_cons, hr,
        ih (some v), List.length_cons, hrange]
      refine congrArg₂ List.cons rfl ?_
      refine List.map_congr_left ?_
      intro i _
      rfl
    | none =>
      rw [ffillColAux_cons_none c a k r tl hr, colProj_cons, colProj_cons, hr,
        cell_setCell_self, ih a, List.length_cons, hrange]
      refine congrArg₂ List.cons rfl ?_
      refine List.map_congr_left ?_
      intro i _
      rfl

theorem colProj_ffillColAux_of_ne (c c' : Col) (a : Option ℚ) (df : FullDF)
    (h : c ≠ c') :
    colProj c (ffillColAux c' a df) = colProj c df := by
  induction df generalizing a with
  | nil => rfl
  | cons hd tl ih =>
    obtain ⟨k, r⟩ := hd
    cases hr : r.cell c' with
    | some v =>
      rw [ffillColAux_cons_some c' a k r tl v hr, colProj_cons, colProj_cons, ih (some v)]
    | none =>
      rw [ffillColAux_cons_none c' a k r tl hr, colProj_cons, colProj_cons, ih a,
        cell_setCell_of_ne r c c' a h]

theorem colProj_fillnaZero_of_ne (c c' : Col) (df : FullDF) (h : c ≠ c') :
    colProj c (fillnaZero c' df) = colProj c df := by
  induction df with
  | nil => rfl
  | cons hd tl ih =>
    obtain ⟨k, r⟩ := hd
    cases hr : r.cell c' with
    | some v =>
      have hstep : fillnaZero c' ((k, r) :: tl) = (k, r) :: fillnaZero c' tl := by
        unfold fillnaZero
        rw [List.map_cons, hr]
      rw [hstep, colProj_cons, colProj_cons, ih]
    | none =>
      have hstep : fillnaZero c' ((k, r) :: tl)
          = (k, r.setCell c' (some 0)) :: fillnaZero c' tl := by
        unfold fillnaZero
        rw [List.map_cons, hr]
      rw [hstep, colProj_cons, colProj_cons, ih, cell_setCell_of_ne r c c' (some 0) h]

theorem colProj_fillnaZero_self (c : Col) (df : FullDF) :
    colProj c (fillnaZero c df) = (colProj c df).map (fun o => some (o.getD 0)) := by
  induction df with
  | nil => rfl
  | cons hd tl ih =>
    obtain ⟨k, r⟩ := hd
    cases hr : r.cell c with
    | some v =>
      have hstep : fillnaZero c ((k, r) :: tl) = (k, r) :: fillnaZero c tl := by
        unfold fillnaZero
        rw [List.map_cons, hr]
      rw [hstep, colProj_cons, colProj_cons, ih, List.map_cons, hr]
      rfl
    | none =>
      have hstep : fillnaZero c ((k, r) :: tl)
          = (k, r.setCell c (some 0)) :: fillnaZero c tl := by
        unfold fillnaZero
        rw [List.map_cons, hr]
      rw [hstep, colProj_cons, colProj_cons, ih, List.map_cons, hr, cell_setCell_self]
      rfl

theorem keysOf_ffillColAux (c : Col) (a : Option ℚ) (df : FullDF) :
    keysOf (ffillColAux c a df) = keysOf df := by
  induction df generalizing a with
  | nil => rfl
  | cons hd tl ih =>
    obtain ⟨k, r⟩ := hd
    cases hr : r.cell c with
    | some v =>
      rw [ffillColAux_cons_some c a k r tl v hr, keysOf, keysOf, List.map_cons,
        List.map_cons]
      exact congrArg _ (ih (some v))
    | none =>
      rw [ffillColAux_cons_none c a k r tl hr, keysOf, keysOf, List.map_cons,
        List.map_cons]
      exact congrArg _ (ih a)

theorem keysOf_fillnaZero (c : Col) (df : FullDF) :
    keysOf (fillnaZero c df) = keysOf df := by
  induction df with
  | nil => rfl
  | cons hd tl ih =>
    obtain ⟨k, r⟩ := hd
    cases hr : r.cell c with
    | some v =>
      have hstep : fillnaZero c ((k, r) :: tl) = (k, r) :: fillnaZero c tl := by
        unfold fillnaZero
        rw [List.map_cons, hr]
      rw [hstep, keysOf, keysOf, List.map_cons, List.map_cons]
      exact congrArg _ ih
    | none =>
      have hstep : fillnaZero c ((k, r) :: tl)
          = (k, r.setCell c (some 0)) :: fillnaZero c tl := by
        unfold fillnaZero
        rw [List.map_cons, hr]
      rw [hstep, keysOf, keysOf, List.map_cons, List.map_cons]
      exact congrArg _ ih

theorem keysOf_applyFills (df : FullDF) : keysOf (applyFills df) = keysOf df := by
  unfold applyFills ffillCol
  rw [keysOf_ffillColAux, keysOf_fillnaZero, keysOf_ffillColAux, keysOf_ffillColAux,
    keysOf_ffillColAux]

theorem length_colProj (c : Col) (df : FullDF) : (colProj c df).length = df.length :=
  List.length_map df _

theorem length_ffillColAux (c : Col) (a : Option ℚ) (df : FullDF) :
    (ffillColAux c a df).length = df.length := by
  have h1 := congrArg List.length (keysOf_ffillColAux c a df)
  rwa [keysOf, keysOf, List.length_map, List.length_map] at h1

theorem length_fillnaZero (c : Col) (df : FullDF) :
    (fillnaZero c df).length = df.length := by
  unfold fillnaZero
  exact List.length_map df _

theorem length_applyFills (df : FullDF) : (applyFills df).length = df.length := by
  have h1 := congrArg List.length (keysOf_applyFills df)
  rwa [keysOf, keysOf, List.length_map, List.length_map] at h1

theorem colProj_applyFills_of_ne_chuva (c : Col) (df : FullDF) (h : c ≠ .chuva) :
    colProj c (applyFills df) = forwardFillSpec (colProj c df) := by
  unfold forwardFillSpec lastKnown
  rw [length_colProj]
  cases c with
  | chuva => exact absurd rfl h
  | dolar =>
    unfold applyFills ffillCol
    rw [colProj_ffillColAux_of_ne _ _ _ _ (by decide),
      colProj_fillnaZero_of_ne _ _ _ (by decide),
      colProj_ffillColAux_of_ne _ _ _ _ (by decide),
      colProj_ffillColAux_of_ne _ _ _ _ (by decide),
      colProj_ffillColAux]
  | jbs =>
    unfold applyFills ffillCol
    rw [colProj_ffillColAux_of_ne _ _ _ _ (by decide),
      colProj_fillnaZero_of_ne _ _ _ (by decide),
      colProj_ffillColAux_of_ne _ _ _ _ (by decide),
      colProj_ffillColAux, colProj_ffillColAux_of_ne _ _ _ _ (by decide),
      length_ffillColAux]
  | boi =>
    unfold applyFills ffillCol
    rw [colProj_ffillColAux_of_ne _ _ _ _ (by decide),
      colProj_fillnaZero_of_ne _ _ _ (by decide),
      colProj_ffillColAux, colProj_ffillColAux_of_ne _ _ _ _ (by decide),
      colProj_ffillColAux_of_ne _ _ _ _ (by decide),
      length_ffillColAux, length_ffillColAux]
  | tempMax =>
    unfold applyFills ffillCol
    rw [colProj_ffillColAux,
      colProj_fillnaZero_of_ne _ _ _ (by decide),
      colProj_ffillColAux_of_ne _ _ _ _ (by decide),
      colProj_ffillColAux_of_ne _ _ _ _ (by decide),
      colProj_ffillColAux_of_ne _ _ _ _ (by decide),
      length_fillnaZero, length_ffillColAux, length_ffillColAux, length_ffillColAux]

/-! ## Claims -/

/-- Claim C2: whenever a live source is unavailable (the call raises, the
finance result is empty or has fewer than 10 rows, or the weather response
lacks a `daily` field) the fetch returns the synthetic table with flag
`false`; otherwise the live table with flag `true`. -/
theorem c2_fetch_fallback (e : FinEnv) (fe : FakeFinEnv) (w : WeatherEnv) (we : FakeClimaEnv) :
    (financeUnavailable e →
      get_finance_history e fe = (gerar_dados_financeiros_fake fe, false)) ∧
    (¬ financeUnavailable e → ∃ rows, e.close = some rows ∧ 10 ≤ rows.length ∧
      get_finance_history e fe = (liveFinanceTable rows, true)) ∧
    (weatherUnavailable w →
      get_weather_history w we = (gerar_dados_clima_fake we, false)) ∧
    (¬ weatherUnavailable w → ∃ rows, w.response = some (some rows) ∧
      get_weather_history w we = (liveWeatherTable rows, true)) := by
  refine ⟨?_, ?_, ?_, ?_⟩
  · rintro (hc | ⟨rows, hr, hlen⟩)
    · simp [get_finance_history, hc]
    · simp [get_finance_history, hr, hlen]
  · intro hna
    rw [financeUnavailable, not_or] at hna
    obtain ⟨hc, hrows⟩ := hna
    push_neg at hrows
    cases he : e.close with
    | none => exact absurd he hc
    | some rows =>
      have hlen : 10 ≤ rows.length := hrows rows he
      refine ⟨rows, rfl, hlen, ?_⟩
      have hne : ¬ (rows.isEmpty = true ∨ rows.length < 10) := by
        rintro (hie | hl)
        · rw [List.isEmpty_iff] at hie
          subst hie
          simp at hlen
        · omega
      unfold get_finance_history
      rw [he]
      exact if_neg hne
  · rintro (hc | hc) <;> simp [get_weather_history, hc]
  · intro hna
    rw [weatherUnavailable, not_or] at hna
    cases hr : w.response with
    | none => exact absurd hr hna.1
    | some o =>
      cases o with
      | none => exact absurd hr hna.2
      | some rows => exact ⟨rows, rfl, by simp [get_weather_history, hr]⟩

/-- Witness for C2: with a raising download and a raising weather request,
both fetches return their synthetic tables flagged `false`. -/
theorem c2_fetch_fallback_witness :
    financeUnavailable ⟨none⟩ ∧ weatherUnavailable ⟨none⟩ ∧
    get_finance_history ⟨none⟩ fakeFinEx = (gerar_dados_financeiros_fake fakeFinEx, false) ∧
    get_weather_history ⟨none⟩ fakeClimaEx = (gerar_dados_clima_fake fakeClimaEx, false) :=
  ⟨Or.inl rfl, Or.inl rfl,
    (c2_fetch_fallback ⟨none⟩ fakeFinEx ⟨none⟩ fakeClimaEx).1 (Or.inl rfl),
    (c2_fetch_fallback ⟨none⟩ fakeFinEx ⟨none⟩ fakeClimaEx).2.2.1 (Or.inl rfl)⟩

/-- Claim C5: for a valid selected pair `s ≤ e`, the graph filter returns
exactly the rows of the merged table whose index date lies in the inclusive
interval `[s, e]`, in their original order (a sublist of the table); the
table itself is untouched (the filter is a pure function of it). -/
theorem c5_filter_range (df : FullDF) (s e : Int) (_h : s ≤ e) :
    (filterGraph df s e).Sublist df ∧
    ∀ p : Int × FullRow, p ∈ filterGraph df s e ↔
      p ∈ df ∧ s ≤ dayOf p.1 ∧ dayOf p.1 ≤ e := by
  refine ⟨List.filter_sublist df, fun p => ?_⟩
  simp [filterGraph, List.mem_filter, inRangeB, and_assoc]

/-- Witness for C5: a two-row table filtered to the single day 5. -/
theorem c5_filter_range_witness :
    (5 : Int) ≤ 5 ∧
    ((filterGraph [(86400, FullRow.mk none none none none none),
        (432000, FullRow.mk none none none none none)] 5 5).Sublist
      [(86400, FullRow.mk none none none none none),
        (432000, FullRow.mk none none none none none)] ∧
    ∀ p : Int × FullRow, p ∈ filterGraph [(86400, FullRow.mk none none none none none),
        (432000, FullRow.mk none none none none none)] 5 5 ↔
      p ∈ [(86400, FullRow.mk none none none none none),
        (432000, FullRow.mk none none none none none)] ∧
      (5 : Int) ≤ dayOf p.1 ∧ dayOf p.1 ≤ 5) :=
  ⟨le_refl 5, c5_filter_range _ 5 5 (le_refl 5)⟩

/-- Claim C6: if any operation of the clean/merge block raises, `df_full`
falls back to a copy of the fetched financial table: same index, and every
financial column value unchanged (only the weather columns are absent). -/
theorem c6_clean_fallback (fin : FinDF) (clima : ClimaDF) (msg : String)
    (h : cleanPipeline fin clima = .error msg) :
    dfFull fin clima = fin.map (fun p => (p.1, finRowToFull p.2)) ∧
    keysOf (dfFull fin clima) = keysOf fin ∧
    ∀ r : FinRow, (finRowToFull r).dolar = r.dolar ∧
      (finRowToFull r).jbs = r.jbs ∧ (finRowToFull r).boi = r.boi := by
  have hdf : dfFull fin clima = fin.map (fun p => (p.1, finRowToFull p.2)) := by
    unfold dfFull
    rw [h]
  refine ⟨hdf, ?_, fun r => ⟨rfl, rfl, rfl⟩⟩
  rw [hdf]
  simp [keysOf]

/-- Witness for C6: a duplicated index label makes the merge raise, and
`df_full` degrades to the financial table. -/
theorem c6_clean_fallback_witness :
    dfFull finDup [] = finDup.map (fun p => (p.1, finRowToFull p.2)) :=
  (c6_clean_fallback finDup [] "cannot reindex on an axis with duplicate labels"
    rfl).1

/-- Claim C7: the fetches are wrapped in a result cache keyed on the function
arguments, so a repeated call — even against a changed live source — returns
the first call's result: the merge, KPIs and CSV downloads observe one
consistent snapshot per cache state. -/
theorem c7_cache_consistency (e1 e2 : FinEnv) (f1 f2 : FakeFinEnv)
    (w1 w2 : WeatherEnv) (g1 g2 : FakeClimaEnv)
    (stF : List (Unit × (FinDF × Bool))) (stW : List (Unit × (ClimaDF × Bool))) :
    (callCached (fun _ => get_finance_history e2 f2)
        (callCached (fun _ => get_finance_history e1 f1) stF ()).2 ()).1
      = (callCached (fun _ => get_finance_history e1 f1) stF ()).1 ∧
    (callCached (fun _ => get_weather_history w2 g2)
        (callCached (fun _ => get_weather_history w1 g1) stW ()).2 ()).1
      = (callCached (fun _ => get_weather_history w1 g1) stW ()).1 :=
  ⟨callCached_repeat _ _ stF (), callCached_repeat _ _ stW ()⟩

/-- Claim C9: for a non-empty merged table, the default graph start offered
by the sidebar is `max_date - 180` clamped up to `min_date`, hence always
inside `[min_date, max_date]`. -/
theorem c9_default_start (df : FullDF) (h : df ≠ []) :
    defaultStartValue (minDateOf df) (maxDateOf df)
        = max (minDateOf df) (maxDateOf df - 180) ∧
    minDateOf df ≤ defaultStartValue (minDateOf df) (maxDateOf df) ∧
    defaultStartValue (minDateOf df) (maxDateOf df) ≤ maxDateOf df := by
  have hmm := minDateOf_le_maxDateOf df h
  unfold defaultStartValue
  by_cases hd : maxDateOf df - 180 < minDateOf df
  · rw [if_pos hd]
    exact ⟨(max_eq_left (le_of_lt hd)).symm, le_refl _, hmm⟩
  · rw [if_neg hd]
    push_neg at hd
    exact ⟨(max_eq_right hd).symm, hd, by omega⟩

/-- Witness for C9: on the merged table of the `envC4` run (one row, day 5)
the default graph start is clamped to `min_date = 5`. -/
theorem c9_default_start_witness :
    ([(432000, rowC4)] : FullDF) ≠ [] ∧
    defaultStartValue (minDateOf [(432000, rowC4)]) (maxDateOf [(432000, rowC4)])
        = max (minDateOf [(432000, rowC4)]) (maxDateOf [(432000, rowC4)] - 180) ∧
    minDateOf [(432000, rowC4)]
        ≤ defaultStartValue (minDateOf [(432000, rowC4)]) (maxDateOf [(432000, rowC4)]) ∧
    defaultStartValue (minDateOf [(432000, rowC4)]) (maxDateOf [(432000, rowC4)])
        ≤ maxDateOf [(432000, rowC4)] :=
  ⟨List.cons_ne_nil _ _, c9_default_start [(432000, rowC4)] (List.cons_ne_nil _ _)⟩

/-- Claim C10: the run stops at the date-order error exactly when the selected
graph start is strictly after the graph end; the filter, the KPI block and
the dashboard (a `finished` or even `crashed` outcome) are reached only when
start ≤ end. -/
theorem c10_date_guard (env : ProgramEnv) :
    runProgram env = .stopped ↔ env.ui.endGraph < env.ui.startGraph := by
  unfold runProgram
  by_cases hlt : env.ui.endGraph < env.ui.startGraph
  · simp [hlt]
  · rw [if_neg hlt]
    simp only [hlt, iff_false]
    cases hk : kpiRows (dfFull (get_finance_history env.fin env.fakeFin).1
        (get_weather_history env.weather env.fakeClima).1) env.ui.selectedDate with
    | none => simp
    | some pr => simp

theorem colProj_applyFills_chuva (df : FullDF) :
    colProj .chuva (applyFills df)
      = (colProj .chuva df).map (fun o => some (o.getD 0)) := by
  unfold applyFills ffillCol
  rw [colProj_ffillColAux_of_ne _ _ _ _ (by decide),
    colProj_fillnaZero_self,
    colProj_ffillColAux_of_ne _ _ _ _ (by decide),
    colProj_ffillColAux_of_ne _ _ _ _ (by decide),
    colProj_ffillColAux_of_ne _ _ _ _ (by decide)]

theorem kpiRowsTry_mem (df : FullDF) (ts : Int) (a b : FullRow)
    (h : kpiRowsTry df ts = some (a, b)) :
    (∃ k, (k, a) ∈ df) ∧ ∃ k, (k, b) ∈ df := by
  unfold kpiRowsTry at h
  by_cases hp : List.Pairwise (fun a b : Int => a ≤ b) (keysOf df)
  · rw [if_pos hp] at h
    cases hi : ilocZ df (ffillIndexer df ts) with
    | none =>
      rw [hi] at h
      cases h
    | some r =>
      rw [hi] at h
      replace h : (if 0 < ffillIndexer df ts then
          match ilocZ df (ffillIndexer df ts - 1) with
          | none => none
          | some p => some (r.2, p.2)
        else some (r.2, r.2)) = some (a, b) := h
      by_cases hidx : (0 : Int) < ffillIndexer df ts
      · rw [if_pos hidx] at h
        cases hi2 : ilocZ df (ffillIndexer df ts - 1) with
        | none =>
          rw [hi2] at h
          cases h
        | some p =>
          rw [hi2] at h
          injection h with h
          injection h with ha hb
          subst ha
          subst hb
          exact ⟨⟨r.1, Prod.mk.eta ▸ ilocZ_mem df _ r hi⟩,
            ⟨p.1, Prod.mk.eta ▸ ilocZ_mem df _ p hi2⟩⟩
      · rw [if_neg hidx] at h
        injection h with h
        injection h with ha hb
        subst ha
        subst hb
        exact ⟨⟨r.1, Prod.mk.eta ▸ ilocZ_mem df _ r hi⟩,
          ⟨r.1, Prod.mk.eta ▸ ilocZ_mem df _ r hi⟩⟩
  · rw [if_neg hp] at h
    cases h

theorem kpiRows_mem (df : FullDF) (sel : Int) (a b : FullRow)
    (h : kpiRows df sel = some (a, b)) :
    (∃ k, (k, a) ∈ df) ∧ ∃ k, (k, b) ∈ df := by
  unfold kpiRows at h
  cases ht : kpiRowsTry df (sel * 86400) with
  | some pr =>
    rw [ht] at h
    have hpr : pr = (a, b) := by
      simpa using h
    exact kpiRowsTry_mem df (sel * 86400) a b (hpr ▸ ht)
  | none =>
    rw [ht] at h
    cases h1 : ilocZ df (-1 : Int) with
    | none =>
      rw [h1] at h
      cases h
    | some x =>
      rw [h1] at h
      cases h2 : ilocZ df (-2 : Int) with
      | none =>
        rw [h2] at h
        cases h
      | some y =>
        rw [h2] at h
        injection h with h
        injection h with ha hb
        subst ha
        subst hb
        exact ⟨⟨x.1, Prod.mk.eta ▸ ilocZ_mem df _ x h1⟩,
          ⟨y.1, Prod.mk.eta ▸ ilocZ_mem df _ y h2⟩⟩

/-- Claim C1 (amended): the filling step propagates only the *last* known
value: in the filled table, each price or temperature entry at position `i`
is the last value known at or before `i` in the merged sorted table (no
back-fill), missing rain entries become `0`, and the rows still missing a
value after filling — in particular dates before the first known price —
are dropped, not filled from the next known value. -/
theorem c1_forward_fill_only (fin : FinDF) (clima : ClimaDF) (m : FullDF)
    (h : mergedSorted fin clima = .ok m) :
    (∀ c : Col, c ≠ .chuva → colProj c (applyFills m) = forwardFillSpec (colProj c m)) ∧
    colProj .chuva (applyFills m) = (colProj .chuva m).map (fun o => some (o.getD 0)) ∧
    cleanPipeline fin clima = .ok (dropna (applyFills m)) ∧
    ∀ p ∈ dropna (applyFills m), completeRow p.2 = true := by
  refine ⟨fun c hc => colProj_applyFills_of_ne_chuva c m hc,
    colProj_applyFills_chuva m, ?_, ?_⟩
  · unfold cleanPipeline
    rw [h]
    rfl
  · intro p hp
    exact (List.mem_filter.mp hp).2

/-- Witness for C1 (amended): the merge of `finC1` and `climaC1` evaluates
to `mC1`, and the filled `Dolar` series is its forward-fill. -/
theorem c1_forward_fill_only_witness :
    mergedSorted finC1 climaC1 = .ok mC1 ∧
    colProj .dolar (applyFills mC1) = forwardFillSpec (colProj .dolar mC1) :=
  ⟨rfl, (c1_forward_fill_only finC1 climaC1 mC1 rfl).1 .dolar (by decide)⟩

/-- Counterexample to claim C1 as stated: in the merged table `mC1` the price
at date 1 is missing while the next known price (5, at date 2) exists, yet
the cleaned output has *no* row at date 1 at all — the missing entry before
the first known value is dropped, not back-filled, and the temperature
series (known at date 1) keeps a gap at its first observation. -/
theorem c1_backfill_counterexample :
    mergedSorted finC1 climaC1 = .ok mC1 ∧
    (mC1.lookup (1 : Int)).isSome = true ∧
    ((mC1.lookup (1 : Int)).bind FullRow.dolar) = none ∧
    ((mC1.lookup (2 : Int)).bind FullRow.dolar) = some 5 ∧
    cleanPipeline finC1 climaC1
      = .ok [(2, ⟨some 5, some 25, some (525/2), some 31, some 0⟩)] ∧
    (([(2, (⟨some 5, some 25, some (525/2), some 31, some 0⟩ : FullRow))] : FullDF).lookup
      (1 : Int)) = none :=
  ⟨rfl, rfl, rfl, rfl, rfl, rfl⟩

/-- Claim C3: the merge aligns the two tables on the shared date index: every
date of either input has a row in the merged table (before any dropping),
its financial columns looked up in the financial table and its weather
columns in the weather table; and the KPI rows are rows of the merged
table, i.e. the derived metrics are computed after, and from, the merge. -/
theorem c3_merge_alignment :
    (∀ (fin : FinDF) (clima : ClimaDF) (m : FullDF), concatOuter fin clima = .ok m →
      ∀ k : Int, k ∈ keysOf fin ∨ k ∈ keysOf clima →
        ∃ r, (k, r) ∈ m ∧
          r.dolar = (fin.lookup k).bind FinRow.dolar ∧
          r.jbs = (fin.lookup k).bind FinRow.jbs ∧
          r.boi = (fin.lookup k).bind FinRow.boi ∧
          r.tempMax = (clima.lookup k).bind ClimaRow.tempMax ∧
          r.chuva = (clima.lookup k).bind ClimaRow.chuva) ∧
    (∀ (df : FullDF) (sel : Int) (a b : FullRow), kpiRows df sel = some (a, b) →
      (∃ k, (k, a) ∈ df) ∧ ∃ k, (k, b) ∈ df) := by
  constructor
  · intro fin clima m h k hk
    unfold concatOuter at h
    split at h
    · injection h with h
      subst h
      refine ⟨mergeRow fin clima k, ?_, rfl, rfl, rfl, rfl, rfl⟩
      refine List.mem_map.mpr ⟨k, ?_, rfl⟩
      cases hk with
      | inl hf => exact List.mem_append_left _ hf
      | inr hcl =>
        by_cases hf : k ∈ keysOf fin
        · exact List.mem_append_left _ hf
        · refine List.mem_append_right _ (List.mem_filter.mpr ⟨hcl, ?_⟩)
          simp [hf]
    · exact Except.noConfusion h
  · exact kpiRows_mem

/-- Witness for C3: on `finC1`/`climaC1`, date 1 (present only in the
weather table) gets a merged row with NaN prices and its weather values. -/
theorem c3_merge_alignment_witness :
    concatOuter finC1 climaC1 = .ok
      [(2, ⟨some 5, some 25, some (525/2), some 31, some 0⟩),
       (1, ⟨none, none, none, some 30, some 0⟩)] ∧
    ∃ r, (((1 : Int), r) ∈
        ([(2, ⟨some 5, some 25, some (525/2), some 31, some 0⟩),
          (1, ⟨none, none, none, some 30, some 0⟩)] : FullDF)) ∧
      r.dolar = (finC1.lookup (1 : Int)).bind FinRow.dolar ∧
      r.jbs = (finC1.lookup (1 : Int)).bind FinRow.jbs ∧
      r.boi = (finC1.lookup (1 : Int)).bind FinRow.boi ∧
      r.tempMax = (climaC1.lookup (1 : Int)).bind ClimaRow.tempMax ∧
      r.chuva = (climaC1.lookup (1 : Int)).bind ClimaRow.chuva :=
  ⟨rfl, (c3_merge_alignment.1 finC1 climaC1 _ rfl 1 (Or.inr (by decide)))⟩

/-- Claim C8: whenever the clean/merge block succeeds, the resulting table has
a non-decreasing date index and no NaN cell in any of the five columns. -/
theorem c8_clean_invariants (fin : FinDF) (clima : ClimaDF) (out : FullDF)
    (h : cleanPipeline fin clima = .ok out) :
    List.Pairwise (fun a b : Int => a ≤ b) (keysOf out) ∧
    ∀ p ∈ out, ∀ c : Col, (p.2.cell c).isSome = true := by
  obtain ⟨m0, hm0, hout⟩ : ∃ m0, concatOuter fin clima = .ok m0 ∧
      out = dropna (applyFills (sortIndex m0)) := by
    unfold cleanPipeline mergedSorted at h
    cases hc : concatOuter fin clima with
    | ok m0 =>
      rw [hc] at h
      refine ⟨m0, rfl, ?_⟩
      simpa [Except.map] using h.symm
    | error e =>
      rw [hc] at h
      simp [Except.map] at h
  have hsorted : List.Sorted (fun a b : Int × FullRow => a.1 ≤ b.1) (sortIndex m0) :=
    List.sorted_insertionSort _ m0
  have hk1 : List.Pairwise (fun a b : Int => a ≤ b) (keysOf (sortIndex m0)) := by
    unfold keysOf
    exact List.pairwise_map.mpr hsorted
  have hk2 : List.Pairwise (fun a b : Int => a ≤ b) (keysOf (applyFills (sortIndex m0))) := by
    rw [keysOf_applyFills]
    exact hk1
  have hsub : (dropna (applyFills (sortIndex m0))).Sublist (applyFills (sortIndex m0)) :=
    List.filter_sublist _
  have hksub : (keysOf out).Sublist (keysOf (applyFills (sortIndex m0))) := by
    rw [hout]
    exact hsub.map Prod.fst
  refine ⟨hk2.sublist hksub, ?_⟩
  intro p hp c
  rw [hout] at hp
  have hcomp : completeRow p.2 = true := (List.mem_filter.mp hp).2
  unfold completeRow at hcomp
  simp only [Bool.and_eq_true] at hcomp
  obtain ⟨⟨⟨⟨hd, hj⟩, hb⟩, ht⟩, hch⟩ := hcomp
  cases c with
  | dolar => exact hd
  | jbs => exact hj
  | boi => exact hb
  | tempMax => exact ht
  | chuva => exact hch

/-- Witness for C8: the cleaned table of `finC1`/`climaC1` is sorted and
NaN-free. -/
theorem c8_clean_invariants_witness :
    List.Pairwise (fun a b : Int => a ≤ b)
      (keysOf ([(2, ⟨some 5, some 25, some (525/2), some 31, some 0⟩)] : FullDF)) ∧
    ∀ p ∈ ([(2, (⟨some 5, some 25, some (525/2), some 31, some 0⟩ : FullRow))] : FullDF),
      ∀ c : Col, (p.2.cell c).isSome = true :=
  c8_clean_invariants finC1 climaC1 _ rfl

/-- Claim C4 (amended): one data flow fetch → clean/merge → filter → display:
the charts render exactly the date-filtered merged table (every displayed
row lies in the selected range), but the CSV download buttons serve the
*raw* fetched financial and weather tables, not the filtered table. -/
theorem c4_dataflow_display_export (env : ProgramEnv) (out : Outputs)
    (h : runProgram env = .finished out) :
    out.chartData = filterGraph
        (dfFull (get_finance_history env.fin env.fakeFin).1
          (get_weather_history env.weather env.fakeClima).1)
        env.ui.startGraph env.ui.endGraph ∧
    (∀ p ∈ out.chartData, env.ui.startGraph ≤ dayOf p.1 ∧ dayOf p.1 ≤ env.ui.endGraph) ∧
    out.downloadFin = (get_finance_history env.fin env.fakeFin).1 ∧
    out.downloadClima = (get_weather_history env.weather env.fakeClima).1 := by
  unfold runProgram at h
  by_cases hlt : env.ui.endGraph < env.ui.startGraph
  · rw [if_pos hlt] at h
    cases h
  · rw [if_neg hlt] at h
    cases hk : kpiRows (dfFull (get_finance_history env.fin env.fakeFin).1
        (get_weather_history env.weather env.fakeClima).1) env.ui.selectedDate with
    | none =>
      rw [hk] at h
      cases h
    | some pr =>
      rw [hk] at h
      injection h with h
      subst h
      refine ⟨rfl, ?_, rfl, rfl⟩
      intro p hp
      have := (List.mem_filter.mp hp).2
      unfold inRangeB at this
      simp only [Bool.and_eq_true, decide_eq_true_eq] at this
      exact this

/-- Witness for C4 (amended): the `envC4` run finishes with `outC4`, whose
financial download is the raw fetched table. -/
theorem c4_dataflow_display_export_witness :
    runProgram envC4 = .finished outC4 ∧
    outC4.downloadFin = (get_finance_history envC4.fin envC4.fakeFin).1 :=
  ⟨rfl, (c4_dataflow_display_export envC4 outC4 rfl).2.2.1⟩

/-- Counterexample to claim C4 as stated: in the `envC4` run the graph range
is day 5 only, yet the exported financial CSV contains the day-1 row, which
is outside the range and absent from the displayed (filtered) data — the
export is *not* restricted to the UI-selected date range. -/
theorem c4_export_counterexample :
    runProgram envC4 = .finished outC4 ∧
    (86400 : Int) ∈ keysOf outC4.downloadFin ∧
    ¬ (envC4.ui.startGraph ≤ dayOf 86400 ∧ dayOf 86400 ≤ envC4.ui.endGraph) ∧
    (86400 : Int) ∉ keysOf outC4.chartData :=
  ⟨rfl, by decide, by decide, by decide⟩

end AgroData
